import Mathlib

/-!
Shallow embedding of the wall-temperature analysis pipeline
(src/load.py and src/transform.py) together with proofs about it.

Conventions of the embedding:
- Timestamps are integers counting minutes (the raw format is
  month/day/year hour:minute with no seconds, so minute resolution is exact).
- A pandas NaN cell is modelled as Option.none; numeric values are rationals.
- A raw CSV cell of a numeric column is Option (Option Rat): the outer
  level is "cell present vs NaN", the inner level is the later
  pd.to_numeric coercion (non-numeric text becomes none).
- DataFrames are lists of structure values; a groupby is modelled by
  deduplicated keys in first-occurrence order together with a filter per
  key.  pandas additionally sorts the groups by key; every property proved
  here is about row contents or row multisets, which sorting does not
  affect.
-/

namespace WallTemp

/-- Mean of a pandas column: NaN entries are skipped, the mean of an
all-NaN column is NaN. -/
def meanOpt (xs : List (Option ℚ)) : Option ℚ :=
  let vs := xs.filterMap id
  if vs.isEmpty then none else some (vs.sum / (vs.length : ℚ))

/-! Sensor topology, load.py lines 22-38. -/

/-- WALL_TOPOLOGY from load.py: wall_id paired with (outside sensors, inside sensors). -/
def WALL_TOPOLOGY : List (ℕ × List ℕ × List ℕ) :=
  [(1, ([1, 2], [9, 10])),
   (2, ([3, 4], [11, 12])),
   (3, ([5, 6], [13, 14])),
   (4, ([7, 8], [15, 16]))]

/-- Iteration of get_sensor_wall over the topology entries in order. -/
def lookupWall : List (ℕ × List ℕ × List ℕ) → ℕ → Option ℕ × Option String
  | [], _ => (none, none)
  | (w, outs, ins) :: rest, s =>
    if s ∈ outs then (some w, some "out")
    else if s ∈ ins then (some w, some "in")
    else lookupWall rest s

/-- get_sensor_wall from load.py: returns (wall_id, position) for a sensor
id, or (none, none) when the sensor id is not in the topology. -/
def get_sensor_wall (sensor_id : ℕ) : Option ℕ × Option String :=
  lookupWall WALL_TOPOLOGY sensor_id

/-! Raw Record Parser, load.py load_csv_file (lines 66-240). -/

/-- One data row as read by pd.read_csv.  For each cell the outer Option is
"present vs NaN"; for the date cell the inner Option is the result of
pd.to_datetime with errors="coerce" (none = unparseable text), and for the
numeric cells the inner Option is the later pd.to_numeric coercion
(none = non-numeric text). -/
structure RawRow where
  dateCell : Option (Option Int)
  surfaceCell : Option (Option ℚ)
  internalCell : Option (Option ℚ)
  roomCell : Option (Option ℚ)
  wallTypeCell : Option String
deriving DecidableEq

/-- A raw CSV file after header handling: decodable records whether one of
the attempted text encodings succeeded, the has-flags record which of the
semantic columns were identified by the substring scan of the header
(lines 105-116 of load.py), and rows are the data rows in file order. -/
structure RawFile where
  decodable : Bool
  hasDate : Bool
  hasSurface : Bool
  hasInternal : Bool
  hasRoom : Bool
  hasWallType : Bool
  rows : List RawRow
deriving DecidableEq

/-- Number of identified required columns (date plus whichever of
surface/internal/room were found) whose cell is NaN in this row
(the _missing_count column of load.py line 145). -/
def missingCount (f : RawFile) (r : RawRow) : ℕ :=
  (if r.dateCell = none then 1 else 0)
  + (if f.hasSurface = true ∧ r.surfaceCell = none then 1 else 0)
  + (if f.hasInternal = true ∧ r.internalCell = none then 1 else 0)
  + (if f.hasRoom = true ∧ r.roomCell = none then 1 else 0)

/-- Predicate for a row with two or more missing required cells. -/
def isBadRow (f : RawFile) (r : RawRow) : Bool :=
  decide (2 ≤ missingCount f r)

/-- End-of-data truncation, load.py lines 147-155: the data is cut at the
index of the first row with 2+ missing required cells, but only when that
index is positive (the source guards with: if first_invalid > 0). -/
def truncateRows (f : RawFile) : List RawRow :=
  match f.rows.findIdx? (isBadRow f) with
  | some i => if 0 < i then f.rows.take i else f.rows
  | none => f.rows

/-- A parsed Sensor Reading, the output unit of the Raw Record Parser. -/
structure Reading where
  timestamp : Int
  surface_temp : Option ℚ
  internal_temp : Option ℚ
  room_temp : Option ℚ
  wall_type : Option String
deriving DecidableEq

/-- Wall-type normalisation, load.py lines 189-192: strip whitespace and fix
the transcription typo Yraka to Yarka.  astype(str) first turns a NaN cell
into the literal string nan. -/
def fixWallType (cell : Option String) : String :=
  let s := (cell.getD "nan").trim
  if s = "Yraka" then "Yarka" else s

/-- Conversion of one surviving row into a Reading (column renaming, numeric
coercion and wall-type cleanup of load.py lines 175-202).  A column that was
not identified is absent, i.e. NaN after the later concat. -/
def toReading (f : RawFile) (r : RawRow) (t : Int) : Reading :=
  { timestamp := t
    surface_temp := if f.hasSurface then r.surfaceCell.bind id else none
    internal_temp := if f.hasInternal then r.internalCell.bind id else none
    room_temp := if f.hasRoom then r.roomCell.bind id else none
    wall_type := if f.hasWallType then some (fixWallType r.wallTypeCell) else none }

/-- Rows surviving timestamp dropna (load.py line 161) mapped to Readings. -/
def validReadings (f : RawFile) (rows : List RawRow) : List Reading :=
  rows.filterMap (fun r =>
    match r.dateCell.bind id with
    | some t => some (toReading f r t)
    | none => none)

/-- load_csv_file from load.py: fails (returns none) when no encoding works,
when no date/time column is found, or when no valid rows remain; otherwise
returns the truncated, timestamp-filtered readings. -/
def load_csv_file (f : RawFile) : Option (List Reading) :=
  if f.decodable = false then none
  else if f.hasDate = false then none
  else
    let kept := validReadings f (truncateRows f)
    if kept.isEmpty then none else some kept

/-- First data row of the C2 counterexample file: the date cell and the
surface cell are both NaN, so 2 required columns are missing already at
index 0. -/
def c2BadFirstRow : RawRow :=
  { dateCell := none, surfaceCell := none, internalCell := some (some 1),
    roomCell := none, wallTypeCell := none }

/-- Second, fully clean data row of the C2 counterexample file. -/
def c2GoodRow : RawRow :=
  { dateCell := some (some 0), surfaceCell := some (some 20),
    internalCell := some (some 21), roomCell := none, wallTypeCell := none }

/-- Counterexample file for C2: the very first data row already has two
missing required cells. -/
def c2File : RawFile :=
  { decodable := true, hasDate := true, hasSurface := true, hasInternal := true,
    hasRoom := false, hasWallType := false,
    rows := [c2BadFirstRow, c2GoodRow] }

/-- Clean data row used by the C2 witness file. -/
def c2CleanRow (t : Int) : RawRow :=
  { dateCell := some (some t), surfaceCell := some (some 20),
    internalCell := some (some 21), roomCell := none, wallTypeCell := none }

/-- Witness file for C2: 5 clean rows followed by a row missing both
temperature columns. -/
def c2File5 : RawFile :=
  { decodable := true, hasDate := true, hasSurface := true, hasInternal := true,
    hasRoom := false, hasWallType := false,
    rows := [c2CleanRow 0, c2CleanRow 1, c2CleanRow 2, c2CleanRow 3, c2CleanRow 4,
             { dateCell := some (some 5), surfaceCell := none, internalCell := none,
               roomCell := none, wallTypeCell := none }] }

/-! Resampler, transform.py resample_to_10min (lines 22-118). -/

/-- One sensor-level row of the combined per-period table that enters
resample_to_10min (the pipeline always carries a period column, so it is
modelled as always present and the group columns always include it). -/
structure SensorRow where
  period : String
  box_id : ℕ
  sensor_id : ℕ
  wall_id : Option ℕ
  position : Option String
  timestamp : Int
  surface_temp : Option ℚ
  internal_temp : Option ℚ
  room_temp : Option ℚ
  wall_type : Option String
deriving DecidableEq

/-- Timestamp flooring to a 10 minute boundary (pandas dt.floor with a
10min frequency), on integer minutes. -/
def floor10 (t : Int) : Int := t - t % 10

/-- Minimum timestamp of a table (pandas df.timestamp.min()); the sources
only evaluate it on nonempty tables. -/
def minTimestamp : List SensorRow → Int
  | [] => 0
  | r :: rs => rs.foldl (fun m x => min m x.timestamp) r.timestamp

/-- The periods_data argument of resample_to_10min: the per-period raw
tables, each possibly absent. -/
abbrev PeriodsData := List (Option (List SensorRow))

/-- Global earliest timestamp, transform.py lines 36-49: with periods_data
the minimum over all nonempty period tables (falling back to the input
table when none contribute), otherwise the minimum of the input table. -/
def globalStart (df : List SensorRow) (periods_data : Option PeriodsData) : Int :=
  match periods_data with
  | some ps =>
    let mins := ps.filterMap (fun o =>
      match o with
      | some rs => if rs.isEmpty then none else some (minTimestamp rs)
      | none => none)
    match mins with
    | [] => minTimestamp df
    | m :: ms => ms.foldl min m
  | none => minTimestamp df

/-- Group key of resample_to_10min, transform.py lines 61-64:
(period, box_id, sensor_id, wall_id, position, t_bin). -/
abbrev ResKey := String × ℕ × ℕ × Option ℕ × Option String × Int

instance : DecidableEq ResKey := instDecidableEqProd

/-- Key of one row, with t_bin the floored timestamp (line 56). -/
def resKey (r : SensorRow) : ResKey :=
  (r.period, r.box_id, r.sensor_id, r.wall_id, r.position, floor10 r.timestamp)

/-- Largest count among the distinct values of a string list. -/
def maxCountVal (xs : List String) : ℕ :=
  (xs.dedup.map (fun v => xs.count v)).foldr max 0

/-- The modal values of a string list: the distinct values of maximal
count (pandas Series.mode drops NaN and returns the modes sorted, so the
value the source takes, mode()[0], is the least modal value). -/
def modeList (xs : List String) : List String :=
  xs.dedup.filter (fun v => decide (xs.count v = maxCountVal xs))

/-- Minimum of two strings in lexicographic (code point) order, phrased on
the underlying character lists, which is definitionally the String order. -/
def strMin (x y : String) : String := if y.data < x.data then y else x

/-- Minimum of a list of strings in lexicographic order. -/
def listMinStr : List String → Option String
  | [] => none
  | x :: xs =>
    match listMinStr xs with
    | none => some x
    | some m => some (strMin x m)

/-- Wall-type aggregation of transform.py line 74: mode()[0] when the mode
list is nonempty (equivalently, some non-NaN value exists), else the first
cell of the group. -/
def wallTypeAgg (cells : List (Option String)) : Option String :=
  match listMinStr (modeList (cells.filterMap id)) with
  | some m => some m
  | none => cells.head?.getD none

/-- Aggregation of one (period, box, sensor, wall, position, t_bin) group:
numeric columns are averaged, wall_type takes the mode (lines 66-76). -/
def aggGroup (k : ResKey) (g : List SensorRow) : SensorRow :=
  { period := k.1
    box_id := k.2.1
    sensor_id := k.2.2.1
    wall_id := k.2.2.2.1
    position := k.2.2.2.2.1
    timestamp := k.2.2.2.2.2
    surface_temp := meanOpt (g.map (·.surface_temp))
    internal_temp := meanOpt (g.map (·.internal_temp))
    room_temp := meanOpt (g.map (·.room_temp))
    wall_type := wallTypeAgg (g.map (·.wall_type)) }

/-- resample_to_10min from transform.py.  The global start is computed and
floored exactly as in lines 36-53, but the binning in line 56 floors each
timestamp to an absolute 10 minute boundary and never reads the global
start, which the embedding mirrors with an unused binding.  Groups are kept
in first-occurrence key order (pandas sorts them by key; all properties
proved below are order-insensitive). -/
def resample_to_10min (df : List SensorRow) (periods_data : Option PeriodsData) :
    Option (List SensorRow) :=
  if df.isEmpty then none
  else
    let _global_start_floored := floor10 (globalStart df periods_data)
    let keys := (df.map resKey).dedup
    some (keys.map (fun k => aggGroup k (df.filter (fun r => decide (resKey r = k)))))

/-- Sensor row used by the C1 witness, with a timestamp not on a bin
boundary. -/
def c1Row : SensorRow :=
  { period := "Period1", box_id := 1, sensor_id := 1, wall_id := some 1,
    position := some "out", timestamp := 23, surface_temp := some 20,
    internal_temp := some 25, room_temp := some 18, wall_type := none }

/-- Periods mapping used by the C1 witness: two periods with different
start times. -/
def c1Periods : PeriodsData :=
  [some [c1Row], some [{ c1Row with timestamp := 127 }]]

/-- First row of the C9 witness table: aligned timestamp, distinct sensor. -/
def c9Row1 : SensorRow :=
  { period := "Period1", box_id := 1, sensor_id := 1, wall_id := some 1,
    position := some "out", timestamp := 0, surface_temp := some 20,
    internal_temp := none, room_temp := some 18, wall_type := some "Yarka" }

/-- Second row of the C9 witness table. -/
def c9Row2 : SensorRow :=
  { c9Row1 with sensor_id := 2, timestamp := 10 }

/-- Key of an already-resampled row (its timestamp is its bin). -/
def rowKey (r : SensorRow) : ResKey :=
  (r.period, r.box_id, r.sensor_id, r.wall_id, r.position, r.timestamp)

/-- The input rows belonging to the bin group of an output row. -/
def binGroup (df : List SensorRow) (r : SensorRow) : List SensorRow :=
  df.filter (fun x => decide (resKey x = rowKey r))

/-- Row of the C8 counterexample bin whose wall_type value comes first in
the bin row order. -/
def c8RowB : SensorRow :=
  { period := "Period1", box_id := 2, sensor_id := 1, wall_id := some 1,
    position := some "out", timestamp := 0, surface_temp := some 20,
    internal_temp := none, room_temp := none, wall_type := some "b" }

/-- Second row of the C8 counterexample bin: same group, later timestamp in
the same 10 minute bin, lexicographically smaller wall_type value. -/
def c8RowA : SensorRow :=
  { c8RowB with timestamp := 5, wall_type := some "a" }

/-- The single output row the resampler produces from the C8 two-row bin. -/
def c8OutRow : SensorRow :=
  ((resample_to_10min [c8RowB, c8RowA] none).getD []).headD c8RowB

/-! Box Aggregator, transform.py aggregate_box_level (lines 318-370). -/

/-- One row of the box-level table: (period, box, timestamp) key, means and
the contributing sensor-row count.  The optional normalized columns of the
source are not involved in any claim and are not modelled. -/
structure BoxRow where
  period : String
  box_id : ℕ
  timestamp : Int
  internal_temp : Option ℚ
  room_temp : Option ℚ
  sensor_count : ℕ
  surface_temp : Option ℚ
deriving DecidableEq

/-- Group key of aggregate_box_level: (period, box_id, timestamp). -/
abbrev BoxKey := String × ℕ × Int

instance : DecidableEq BoxKey := instDecidableEqProd

/-- Key of one sensor row for box-level grouping. -/
def boxKey (r : SensorRow) : BoxKey := (r.period, r.box_id, r.timestamp)

/-- aggregate_box_level from transform.py: internal_temp and room_temp are
means over all sensor rows of the group and sensor_count counts the group
rows (pandas counts non-null sensor_id values, and sensor_id is always set
by the loader); surface_temp comes from a second aggregation over only the
rows with position in, left-merged back onto the box table (missing for
keys with no such rows).  The position column is always present on the
pipeline path, so the fallback branch of lines 360-364 is not modelled. -/
def aggregate_box_level (df : List SensorRow) : Option (List BoxRow) :=
  if df.isEmpty then none
  else
    let keys := (df.map boxKey).dedup
    let box_df := keys.map (fun k =>
      ({ period := k.1, box_id := k.2.1, timestamp := k.2.2,
         internal_temp :=
           meanOpt ((df.filter (fun r => decide (boxKey r = k))).map (·.internal_temp)),
         room_temp :=
           meanOpt ((df.filter (fun r => decide (boxKey r = k))).map (·.room_temp)),
         sensor_count := (df.filter (fun r => decide (boxKey r = k))).length,
         surface_temp := none } : BoxRow))
    let in_sensors := df.filter (fun r => decide (r.position = some "in"))
    let in_df := ((in_sensors.map boxKey).dedup).map (fun k =>
      (k, meanOpt ((in_sensors.filter (fun r => decide (boxKey r = k))).map (·.surface_temp))))
    some (box_df.map (fun b =>
      { b with surface_temp :=
          ((in_df.find? (fun e => decide (e.1 = (b.period, b.box_id, b.timestamp)))).map
            (fun e => e.2)).getD none }))

/-- The sensor rows belonging to the (period, box, timestamp) group of a
box-level output row. -/
def boxGroup (df : List SensorRow) (b : BoxRow) : List SensorRow :=
  df.filter (fun r => decide (boxKey r = (b.period, b.box_id, b.timestamp)))

/-- Witness rows for C3: two sensors of one box at one timestamp, one of
them in-position. -/
def c3RowIn : SensorRow :=
  { period := "Period1", box_id := 1, sensor_id := 9, wall_id := some 1,
    position := some "in", timestamp := 0, surface_temp := some 30,
    internal_temp := some 24, room_temp := some 18, wall_type := none }

/-- Out-position witness row for C3. -/
def c3RowOut : SensorRow :=
  { c3RowIn with
      sensor_id := 1
      position := some "out"
      surface_temp := some 10
      internal_temp := some 26 }

/-! Derived-Quantity Calculator, transform.py calculate_thermal_gradient
(lines 150-228). -/

/-- One wall-level input row.  A none entry is a NaN cell (a position that
had no sensor rows at that timestamp leaves its column NaN after the
pivot). -/
structure WallRowIn where
  out_surface : Option ℚ
  in_surface : Option ℚ
  out_internal : Option ℚ
  in_internal : Option ℚ
  room_temp : Option ℚ
deriving DecidableEq

/-- Which wall-level columns exist in the table.  The source branches on
column presence (if name in df.columns), not on per-row values. -/
structure WallCols where
  hasOutSurface : Bool
  hasInSurface : Bool
  hasOutInternal : Bool
  hasInInternal : Bool
  hasRoom : Bool
deriving DecidableEq

/-- Pandas NaN-propagating subtraction of two cells. -/
def osub : Option ℚ → Option ℚ → Option ℚ
  | some a, some b => some (a - b)
  | _, _ => none

/-- Pandas NaN-propagating mean of two cells: (a + b) / 2. -/
def omean2 : Option ℚ → Option ℚ → Option ℚ
  | some a, some b => some ((a + b) / 2)
  | _, _ => none

/-- The internal_avg column of transform.py lines 187-195: the branching is
on COLUMN presence.  With both internal columns present the row value is
(out_internal + in_internal) / 2, which is NaN whenever either cell is NaN;
with exactly one column present that column is copied; with neither, the
column is absent (modelled as a per-row none together with the derived
column flag below). -/
def internalAvgCell (cols : WallCols) (r : WallRowIn) : Option ℚ :=
  if cols.hasOutInternal ∧ cols.hasInInternal then omean2 r.out_internal r.in_internal
  else if cols.hasOutInternal then r.out_internal
  else if cols.hasInInternal then r.in_internal
  else none

/-- Whether the internal_avg column is created at all. -/
def hasInternalAvg (cols : WallCols) : Bool :=
  cols.hasOutInternal || cols.hasInInternal

/-- One wall-level output row of the gradient calculator. -/
structure GradRow where
  base : WallRowIn
  gradient_air_to_out_surface : Option ℚ
  gradient_out_to_in_surface : Option ℚ
  internal_avg : Option ℚ
  gradient_in_surface_to_internal : Option ℚ
  total_gradient : Option ℚ
deriving DecidableEq

/-- Which derived columns exist after the gradient calculator ran. -/
structure GradCols where
  hasAirToOut : Bool
  hasOutToIn : Bool
  hasInternalAvgCol : Bool
  hasInToInternal : Bool
  hasTotal : Bool
deriving DecidableEq

/-- Per-row computation of calculate_thermal_gradient (transform.py lines
178-203), with each derived cell none when its source columns are absent or
its inputs are per-row NaN. -/
def gradRowOf (cols : WallCols) (r : WallRowIn) : GradRow :=
  { base := r
    gradient_air_to_out_surface :=
      if cols.hasOutSurface ∧ cols.hasRoom then osub r.out_surface r.room_temp else none
    gradient_out_to_in_surface :=
      if cols.hasOutSurface ∧ cols.hasInSurface then osub r.in_surface r.out_surface else none
    internal_avg := internalAvgCell cols r
    gradient_in_surface_to_internal :=
      if cols.hasInSurface ∧ hasInternalAvg cols = true then
        osub (internalAvgCell cols r) r.in_surface
      else none
    total_gradient :=
      if cols.hasRoom ∧ hasInternalAvg cols = true then
        osub (internalAvgCell cols r) r.room_temp
      else none }

/-- calculate_thermal_gradient from transform.py: adds the derived columns
(when their sources exist) to every row of the wall-level table. -/
def calculate_thermal_gradient (cols : WallCols) (rows : List WallRowIn) :
    GradCols × List GradRow :=
  ({ hasAirToOut := cols.hasOutSurface && cols.hasRoom
     hasOutToIn := cols.hasOutSurface && cols.hasInSurface
     hasInternalAvgCol := hasInternalAvg cols
     hasInToInternal := cols.hasInSurface && hasInternalAvg cols
     hasTotal := cols.hasRoom && hasInternalAvg cols },
   rows.map (gradRowOf cols))

/-- Column set of the C4 counterexample: all five wall-level columns
present. -/
def c4Cols : WallCols :=
  { hasOutSurface := true, hasInSurface := true, hasOutInternal := true,
    hasInInternal := true, hasRoom := true }

/-- Row of the C4 counterexample: out_internal is missing for this row while
in_internal is present. -/
def c4Row : WallRowIn :=
  { out_surface := some 30, in_surface := some 20, out_internal := none,
    in_internal := some 25, room_temp := some 10 }

/-- Fully populated row for the C4 witness. -/
def c4WRow : WallRowIn :=
  { out_surface := some 30, in_surface := some 20, out_internal := some 26,
    in_internal := some 24, room_temp := some 10 }

/-! Period Loader, load.py load_period_data (lines 243-358). -/

/-- One row of the concatenated period table (the period name column is
attached later by load_all_periods). -/
structure LoadedRow where
  box_id : ℕ
  sensor_id : ℕ
  wall_id : Option ℕ
  position : Option String
  timestamp : Int
  surface_temp : Option ℚ
  internal_temp : Option ℚ
  room_temp : Option ℚ
  wall_type : Option String
deriving DecidableEq

/-- One CSV file of a period directory as seen by the loader loop:
nameParse is the outcome of the parse_filename regular-expression match
(modelled by its result), content is the raw file fed to load_csv_file. -/
structure PeriodFile where
  nameParse : Option (ℕ × ℕ)
  content : RawFile
deriving DecidableEq

/-- The contribution of one file to the period table (one iteration of the
loop in load.py lines 269-296): skipped (none) when the filename does not
parse or the file yields no valid data; otherwise the readings with the
identity metadata attached. -/
def fileTable (f : PeriodFile) : Option (List LoadedRow) :=
  match f.nameParse with
  | none => none
  | some (box, sid) =>
    match load_csv_file f.content with
    | none => none
    | some readings =>
      if readings.isEmpty then none
      else
        some (readings.map (fun rd =>
          { box_id := box
            sensor_id := sid
            wall_id := (get_sensor_wall sid).1
            position := (get_sensor_wall sid).2
            timestamp := rd.timestamp
            surface_temp := rd.surface_temp
            internal_temp := rd.internal_temp
            room_temp := rd.room_temp
            wall_type := rd.wall_type }))

/-- load_period_data from load.py: concatenates the usable per-file tables,
returning none exactly when no file contributed. -/
def load_period_data (files : List PeriodFile) : Option (List LoadedRow) :=
  let all_data := files.filterMap fileTable
  if all_data.isEmpty then none else some all_data.flatten

/-- A usable file for the C6 witness: well-formed name and two clean rows
(reusing the clean raw rows of the C2 witness). -/
def c6GoodFile : PeriodFile :=
  { nameParse := some (1, 1)
    content :=
      { decodable := true, hasDate := true, hasSurface := true, hasInternal := true,
        hasRoom := false, hasWallType := false,
        rows := [c2CleanRow 0, c2CleanRow 1] } }

/-- An unusable file for the C6 witness: its filename does not match the
recognised pattern. -/
def c6BadNameFile : PeriodFile :=
  { nameParse := none
    content := c6GoodFile.content }

/-- An unusable file for the C6 witness: name parses but the file cannot be
decoded. -/
def c6BadContentFile : PeriodFile :=
  { nameParse := some (1, 2)
    content := { c6GoodFile.content with decodable := false } }

/-! Thermal Lag Estimator, transform.py calculate_thermal_lag (lines
413-452). -/

/-- Jointly valid (outside, inside) samples after removing positions where
either series is missing (lines 418-421). -/
def cleanPairs (out_series in_series : List (Option ℚ)) : List (ℚ × ℚ) :=
  (out_series.zip in_series).filterMap (fun p =>
    match p.1, p.2 with
    | some a, some b => some (a, b)
    | _, _ => none)

/-- Centered copy of a series (mean removed).  The source also divides each
series by (std + 1e-8); that scales every cross-correlation value by one
positive constant, leaving the arg-max lag selected below unchanged, so the
embedding works with the centered, unscaled series (the standard deviation
is irrational in general). -/
def centered (vs : List ℚ) : List ℚ :=
  vs.map (fun v => v - vs.sum / (vs.length : ℚ))

/-- Cross-correlation of the inside channel against a delayed copy of the
outside channel at a non-negative lag (scipy correlate with mode full,
evaluated at the lags the valid-range mask keeps): sum over k of
inC[k] * outC[k - lag], out-of-range entries contributing zero. -/
def corrAt (outC inC : List ℚ) (lag : ℕ) : ℚ :=
  ((List.range inC.length).map (fun k =>
    inC.getD k 0 * (if lag ≤ k then outC.getD (k - lag) 0 else 0))).sum

/-- Index of the first maximal entry of a rational list (np.argmax). -/
def argmaxIdx : List ℚ → ℕ
  | [] => 0
  | x :: xs => if xs.foldr max x ≤ x then 0 else argmaxIdx xs + 1

/-- Candidate lags in bins: the non-negative lags within the horizon of
max_lag_hours (lines 432-439; one bin is 10 minutes). -/
def lagCandidates (n max_lag_hours : ℕ) : List ℕ :=
  (List.range n).filter (fun l => decide (10 * l ≤ 60 * max_lag_hours))

/-- calculate_thermal_lag from transform.py, returning the selected lag in
minutes.  The second return value of the source (the normalized correlation
coefficient, a floating-point quantity involving the standard deviations)
is outside every claim and is not modelled. -/
def calculate_thermal_lag (out_series in_series : List (Option ℚ))
    (max_lag_hours : ℕ) : Option ℕ :=
  let pairs := cleanPairs out_series in_series
  if pairs.length < 10 then none
  else
    let outC := centered (pairs.map (fun p => p.1))
    let inC := centered (pairs.map (fun p => p.2))
    let cands := lagCandidates pairs.length max_lag_hours
    if cands.isEmpty then none
    else
      let vals := cands.map (fun l => corrAt outC inC l)
      some (10 * cands.getD (argmaxIdx vals) 0)

/-- Outside series for the C7 witness: 10 valid samples. -/
def c7OutSeries : List (Option ℚ) :=
  [some 1, some 3, some 2, some 5, some 4, some 7, some 6, some 9, some 8, some 10]

/-- Inside series for the C7 witness: 10 valid samples. -/
def c7InSeries : List (Option ℚ) :=
  [some 2, some 4, some 3, some 6, some 5, some 8, some 7, some 10, some 9, some 11]

/-! Theorems. -/

theorem meanOpt_singleton (x : Option ℚ) : meanOpt [x] = x := by
  cases x with
  | none => rfl
  | some q => simp [meanOpt]

theorem meanOpt_nil : meanOpt [] = none := rfl

/-- C5: every sensor id in [1,16] resolves to exactly one (wall_id, position)
pair following the fixed topology (wall 1 = {1,2,9,10}, wall 2 = {3,4,11,12},
wall 3 = {5,6,13,14}, wall 4 = {7,8,15,16}; sensors 1-8 are "out" and 9-16
are "in"), and the sensor sets of distinct walls are pairwise disjoint. -/
theorem c5_topology :
    (∀ s : Fin 16, get_sensor_wall (s.1 + 1) =
      (some (if s.1 + 1 ∈ ([1, 2, 9, 10] : List ℕ) then 1
             else if s.1 + 1 ∈ ([3, 4, 11, 12] : List ℕ) then 2
             else if s.1 + 1 ∈ ([5, 6, 13, 14] : List ℕ) then 3
             else 4),
       some (if s.1 + 1 ≤ 8 then "out" else "in")))
    ∧ (∀ e1 ∈ WALL_TOPOLOGY, ∀ e2 ∈ WALL_TOPOLOGY, e1.1 ≠ e2.1 →
        ∀ s ∈ e1.2.1 ++ e1.2.2, s ∉ e2.2.1 ++ e2.2.2) := by
  constructor
  · decide
  · decide

/-- Helper: findIdx? returns some i when all rows before index i fail the
predicate and row i satisfies it. -/
theorem findIdx?_of_first {α : Type} (p : α → Bool) :
    ∀ (l : List α) (i : ℕ),
      (∀ j, j < i → ∀ x, l.get? j = some x → p x = false) →
      (∃ x, l.get? i = some x ∧ p x = true) →
      l.findIdx? p = some i := by
  intro l
  induction l with
  | nil =>
    intro i _ hbad
    obtain ⟨x, hx, _⟩ := hbad
    simp at hx
  | cons a as ih =>
    intro i hgood hbad
    cases i with
    | zero =>
      obtain ⟨x, hx, hpx⟩ := hbad
      simp only [List.get?] at hx
      cases hx
      simp [List.findIdx?_cons, hpx]
    | succ n =>
      have ha : p a = false := hgood 0 (Nat.succ_pos n) a rfl
      have hrest : as.findIdx? p = some n := by
        apply ih
        · intro j hj x hx
          exact hgood (j + 1) (Nat.succ_lt_succ hj) x hx
        · obtain ⟨x, hx, hpx⟩ := hbad
          exact ⟨x, hx, hpx⟩
      simp [List.findIdx?_cons, ha, hrest]

/-- C2 (amended): when the first row with 2+ missing required cells sits at a
positive index i (all earlier rows are clean), that row and all later rows are
discarded, so a successful parse returns exactly the valid-timestamp readings
of the first i rows.  The amendment restricts the claim to positive i: the
source guards the truncation with (if first_invalid > 0), so a first bad row
at index 0 causes no truncation at all. -/
theorem c2_truncation (f : RawFile) (i : ℕ)
    (hgood : (f.rows.take i).all (fun r => !(isBadRow f r)) = true)
    (hbad : (f.rows[i]?.map (isBadRow f)).getD false = true)
    (hi : 0 < i)
    (rs : List Reading) (hres : load_csv_file f = some rs) :
    rs = validReadings f (f.rows.take i) := by
  have hbad2 : ∃ x, f.rows.get? i = some x ∧ isBadRow f x = true := by
    cases h : f.rows[i]? with
    | none => simp [h] at hbad
    | some x =>
      rw [h] at hbad
      refine ⟨x, ?_, by simpa using hbad⟩
      rw [List.get?_eq_getElem?]
      exact h
  have hgood2 : ∀ j, j < i → ∀ x, f.rows.get? j = some x → isBadRow f x = false := by
    intro j hj x hx
    have hx2 : f.rows[j]? = some x := by
      rw [← List.get?_eq_getElem?]; exact hx
    have hxt : (f.rows.take i)[j]? = some x := by
      rw [List.getElem?_take_of_lt hj]; exact hx2
    have hxm : x ∈ f.rows.take i := List.getElem?_mem hxt
    have hall := List.all_eq_true.mp hgood x hxm
    simpa using hall
  have hfind : f.rows.findIdx? (isBadRow f) = some i :=
    findIdx?_of_first (isBadRow f) f.rows i hgood2 hbad2
  have htr : truncateRows f = f.rows.take i := by
    unfold truncateRows
    rw [hfind]
    simp [hi]
  have hdec : f.decodable = true := by
    by_cases h : f.decodable = true
    · exact h
    · have h2 : f.decodable = false := by simpa using h
      simp [load_csv_file, h2] at hres
  have hdate : f.hasDate = true := by
    by_cases h : f.hasDate = true
    · exact h
    · have h2 : f.hasDate = false := by simpa using h
      simp [load_csv_file, hdec, h2] at hres
  simp only [load_csv_file, hdec, hdate, htr] at hres
  by_cases he : (validReadings f (f.rows.take i)).isEmpty
  · simp [he] at hres
  · simp [he] at hres
    exact hres.symm

/-- C2 counterexample: in c2File the first row with 2+ missing required
columns is the row at index 0, so by the claim that row and all later rows
should be discarded and the parse should yield no readings; the code instead
skips truncation (first_invalid > 0 fails) and returns the later clean row. -/
theorem c2_counterexample :
    isBadRow c2File c2BadFirstRow = true ∧
    c2File.rows.get? 0 = some c2BadFirstRow ∧
    load_csv_file c2File =
      some [{ timestamp := 0, surface_temp := some 20, internal_temp := some 21,
              room_temp := none, wall_type := none }] := by
  refine ⟨by decide, rfl, by decide⟩

/-- C2 witness: on the 5-clean-rows-then-bad-row file the truncation theorem
applies with i = 5 and the parser returns exactly 5 readings. -/
theorem c2_truncation_witness :
    ((load_csv_file c2File5).getD []) = validReadings c2File5 (c2File5.rows.take 5) ∧
    ((load_csv_file c2File5).getD []).length = 5 :=
  ⟨c2_truncation c2File5 5 (by decide) (by decide) (by decide) _ (by rfl),
   by decide⟩

theorem floor10_emod (t : Int) : floor10 t % 10 = 0 := by
  unfold floor10; omega

theorem floor10_of_aligned {t : Int} (h : t % 10 = 0) : floor10 t = t := by
  unfold floor10; omega

/-- C10: the output of resample_to_10min does not depend on the periods_data
argument: the global start value is computed from it but never used in the
binning, which floors every timestamp to an absolute 10 minute boundary. -/
theorem c10_periods_data_unused (df : List SensorRow) (p : PeriodsData) :
    resample_to_10min df (some p) = resample_to_10min df none := rfl

/-- C1: every output row of the resampler has a timestamp that is a multiple
of 10 minutes from the shared global epoch (the floored earliest timestamp
across all periods), in every period: (bin_timestamp - global_start) mod
10min = 0. -/
theorem c1_global_alignment (df : List SensorRow) (p : Option PeriodsData)
    (out : List SensorRow) (h : resample_to_10min df p = some out) :
    ∀ r ∈ out, (r.timestamp - floor10 (globalStart df p)) % 10 = 0 := by
  intro r hr
  have hts : r.timestamp % 10 = 0 := by
    unfold resample_to_10min at h
    split at h
    · exact absurd h (by simp)
    · have hout := Option.some.inj h
      rw [← hout] at hr
      obtain ⟨k, hk, hak⟩ := List.mem_map.mp hr
      have hkm : k ∈ df.map resKey := List.mem_dedup.mp hk
      obtain ⟨r0, _, hkey⟩ := List.mem_map.mp hkm
      have htsr : r.timestamp = k.2.2.2.2.2 := by rw [← hak]; rfl
      rw [htsr, ← hkey]
      exact floor10_emod r0.timestamp
  have hgs : floor10 (globalStart df p) % 10 = 0 := floor10_emod _
  omega

/-- C1 witness: the alignment theorem applied to a concrete one-row table
(timestamp 23, bin 20) with a concrete two-period mapping. -/
theorem c1_global_alignment_witness :
    ((20 : Int) - floor10 (globalStart [c1Row] (some c1Periods))) % 10 = 0 :=
  c1_global_alignment [c1Row] (some c1Periods)
    ((resample_to_10min [c1Row] (some c1Periods)).getD []) rfl
    (((resample_to_10min [c1Row] (some c1Periods)).getD []).headD c1Row)
    (List.mem_singleton.mpr rfl)

theorem wallTypeAgg_singleton (o : Option String) : wallTypeAgg [o] = o := by
  cases o with
  | none => rfl
  | some s =>
    simp [wallTypeAgg, modeList, maxCountVal, listMinStr]

/-- Helper: in a list whose keys are pairwise distinct, filtering by the key
of a member returns exactly that member. -/
theorem filter_key_singleton {α β : Type} [DecidableEq β] (key : α → β) :
    ∀ (l : List α), l.Pairwise (fun a b => key a ≠ key b) →
      ∀ r ∈ l, l.filter (fun x => decide (key x = key r)) = [r] := by
  intro l
  induction l with
  | nil => intro _ r hr; cases hr
  | cons a as ih =>
    intro hnd r hr
    have hpc := List.pairwise_cons.mp hnd
    rcases List.mem_cons.mp hr with heq | hmem
    · subst heq
      have hnil : as.filter (fun x => decide (key x = key r)) = [] := by
        rw [List.filter_eq_nil_iff]
        intro x hx
        simpa using fun hc => hpc.1 x hx hc.symm
      simp [List.filter_cons, hnil]
    · have hne : key a ≠ key r := hpc.1 r hmem
      have htl := ih hpc.2 r hmem
      simp [List.filter_cons, hne, htl]

/-- A singleton group resamples to its unique row (with its timestamp
already equal to its bin). -/
theorem aggGroup_singleton (r : SensorRow) (h : r.timestamp % 10 = 0) :
    aggGroup (resKey r) [r] = r := by
  obtain ⟨per, box, sid, wid, pos, ts, st, it, rt, wt⟩ := r
  simp only [Int.emod_emod_of_dvd] at h
  simp [aggGroup, resKey, meanOpt_singleton, wallTypeAgg_singleton,
    floor10_of_aligned h]

/-- C9: resampling is idempotent on an already-aligned table with one row
per (period, box, sensor, bin): the output is exactly the input rows (as a
multiset; pandas re-orders groups by key). -/
theorem c9_idempotent (df : List SensorRow) (p : Option PeriodsData)
    (hne : df ≠ [])
    (haligned : ∀ r ∈ df, r.timestamp % 10 = 0)
    (huniq : df.Pairwise (fun a b =>
      (a.period, a.box_id, a.sensor_id, floor10 a.timestamp) ≠
      (b.period, b.box_id, b.sensor_id, floor10 b.timestamp))) :
    ∃ out, resample_to_10min df p = some out ∧ out.Perm df := by
  have hkey : df.Pairwise (fun a b => resKey a ≠ resKey b) := by
    refine huniq.imp ?_
    intro a b hab hc
    apply hab
    unfold resKey at hc
    simp only [Prod.mk.injEq] at hc
    simp only [Prod.mk.injEq]
    exact ⟨hc.1, hc.2.1, hc.2.2.1, hc.2.2.2.2.2⟩
  have hnodup : (df.map resKey).Nodup := List.pairwise_map.mpr hkey
  have hdedup : (df.map resKey).dedup = df.map resKey :=
    List.dedup_eq_self.mpr hnodup
  refine ⟨df, ?_, List.Perm.refl df⟩
  unfold resample_to_10min
  have hemp : df.isEmpty = false := by
    cases df with
    | nil => exact absurd rfl hne
    | cons a as => rfl
  simp only [hemp, Bool.false_eq_true, if_false, hdedup, List.map_map,
    Option.some.injEq]
  have hmapeq : ∀ r ∈ df,
      aggGroup (resKey r) (df.filter (fun x => decide (resKey x = resKey r))) = r := by
    intro r hr
    rw [filter_key_singleton resKey df hkey r hr]
    exact aggGroup_singleton r (haligned r hr)
  calc df.map ((fun k => aggGroup k (df.filter (fun x => decide (resKey x = k)))) ∘ resKey)
      = df.map id := by
        apply List.map_congr_left
        intro r hr
        exact hmapeq r hr
    _ = df := List.map_id df

/-- C9 witness: the idempotence theorem applied to a concrete aligned
two-row table. -/
theorem c9_idempotent_witness :
    ∃ out, resample_to_10min [c9Row1, c9Row2] none = some out ∧
      out.Perm [c9Row1, c9Row2] :=
  c9_idempotent [c9Row1, c9Row2] none (by decide) (by decide) (by decide)

theorem le_foldr_max : ∀ (l : List ℕ), ∀ x ∈ l, x ≤ l.foldr max 0 := by
  intro l
  induction l with
  | nil => intro x hx; cases hx
  | cons a as ih =>
    intro x hx
    rcases List.mem_cons.mp hx with heq | hmem
    · subst heq; exact le_max_left _ _
    · exact le_trans (ih x hmem) (le_max_right _ _)

theorem foldr_max_mem : ∀ (l : List ℕ), l.foldr max 0 ∈ l ∨ l.foldr max 0 = 0 := by
  intro l
  induction l with
  | nil => right; rfl
  | cons a as ih =>
    rcases max_choice a (as.foldr max 0) with h | h
    · left; rw [List.foldr_cons, h]; exact List.mem_cons_self a as
    · rw [List.foldr_cons, h]
      rcases ih with hm | hz
      · left; exact List.mem_cons_of_mem a hm
      · right; exact hz

theorem count_le_maxCountVal (xs : List String) : ∀ v ∈ xs, xs.count v ≤ maxCountVal xs := by
  intro v hv
  have hvd : v ∈ xs.dedup := List.mem_dedup.mpr hv
  have hc : xs.count v ∈ xs.dedup.map (fun w => xs.count w) :=
    List.mem_map.mpr ⟨v, hvd, rfl⟩
  exact le_foldr_max _ _ hc

theorem modeList_ne_nil (xs : List String) (h : xs ≠ []) : modeList xs ≠ [] := by
  obtain ⟨x, hx⟩ : ∃ x, x ∈ xs := by
    cases xs with
    | nil => exact absurd rfl h
    | cons a as => exact ⟨a, List.mem_cons_self a as⟩
  have hpos : 0 < xs.count x := List.count_pos_iff.mpr hx
  have hle : xs.count x ≤ maxCountVal xs := count_le_maxCountVal xs x hx
  have hMpos : 0 < maxCountVal xs := lt_of_lt_of_le hpos hle
  have hmem : maxCountVal xs ∈ xs.dedup.map (fun w => xs.count w) := by
    rcases foldr_max_mem (xs.dedup.map (fun w => xs.count w)) with hm | hz
    · exact hm
    · exact absurd hz (by unfold maxCountVal at hMpos; omega)
  obtain ⟨v, hvd, hvc⟩ := List.mem_map.mp hmem
  have hvm : v ∈ modeList xs := by
    unfold modeList
    rw [List.mem_filter]
    exact ⟨hvd, by simpa using hvc⟩
  intro hnil
  rw [hnil] at hvm
  cases hvm

theorem strMin_choice (x y : String) : strMin x y = x ∨ strMin x y = y := by
  unfold strMin
  split
  · right; rfl
  · left; rfl

theorem strMin_le_left (x y : String) : strMin x y ≤ x := by
  unfold strMin
  split
  · next h => exact le_of_lt (String.lt_iff_toList_lt.mpr h)
  · exact le_refl x

theorem strMin_le_right (x y : String) : strMin x y ≤ y := by
  unfold strMin
  split
  · exact le_refl y
  · next h => exact le_of_not_lt (fun hlt => h (String.lt_iff_toList_lt.mp hlt))

theorem listMinStr_spec : ∀ (l : List String) (m : String), listMinStr l = some m →
    m ∈ l ∧ ∀ v ∈ l, m ≤ v := by
  intro l
  induction l with
  | nil => intro m hm; cases hm
  | cons a as ih =>
    intro m hm
    unfold listMinStr at hm
    cases hrec : listMinStr as with
    | none =>
      rw [hrec] at hm
      injection hm with hm2
      subst hm2
      have hasnil : as = [] := by
        cases as with
        | nil => rfl
        | cons b bs =>
          unfold listMinStr at hrec
          cases h2 : listMinStr bs <;> rw [h2] at hrec <;> cases hrec
      subst hasnil
      exact ⟨List.mem_singleton.mpr rfl, by intro v hv; rw [List.mem_singleton.mp hv]⟩
    | some m0 =>
      rw [hrec] at hm
      injection hm with hm2
      subst hm2
      obtain ⟨hm0mem, hm0le⟩ := ih m0 hrec
      constructor
      · rcases strMin_choice a m0 with hc | hc
        · rw [hc]; exact List.mem_cons_self a as
        · rw [hc]; exact List.mem_cons_of_mem a hm0mem
      · intro v hv
        rcases List.mem_cons.mp hv with heq | hmem
        · rw [heq]; exact strMin_le_left a m0
        · exact le_trans (strMin_le_right a m0) (hm0le v hmem)

theorem listMinStr_isSome (l : List String) (h : l ≠ []) :
    ∃ m, listMinStr l = some m := by
  cases l with
  | nil => exact absurd rfl h
  | cons a as =>
    unfold listMinStr
    cases listMinStr as with
    | none => exact ⟨a, rfl⟩
    | some m0 => exact ⟨strMin a m0, rfl⟩

/-- Specification of the wall-type aggregation of transform.py line 74:
when some non-missing value exists the result is a most frequent value and,
among equally frequent values, the least in lexicographic order; with no
non-missing value the first cell of the group is returned. -/
theorem wallTypeAgg_spec (cells : List (Option String)) :
    ((cells.filterMap id ≠ []) → ∃ m, wallTypeAgg cells = some m ∧
      m ∈ cells.filterMap id ∧
      (∀ v ∈ cells.filterMap id,
        (cells.filterMap id).count v ≤ (cells.filterMap id).count m) ∧
      (∀ v ∈ cells.filterMap id,
        (cells.filterMap id).count v = (cells.filterMap id).count m → m ≤ v)) ∧
    ((cells.filterMap id = []) → wallTypeAgg cells = cells.head?.getD none) := by
  constructor
  · intro hne
    set ws := cells.filterMap id with hws
    have hmne : modeList ws ≠ [] := modeList_ne_nil ws hne
    obtain ⟨m, hm⟩ := listMinStr_isSome (modeList ws) hmne
    obtain ⟨hmmem, hmmin⟩ := listMinStr_spec (modeList ws) m hm
    have hmmode : m ∈ ws.dedup ∧ ws.count m = maxCountVal ws := by
      unfold modeList at hmmem
      have := List.mem_filter.mp hmmem
      exact ⟨this.1, by simpa using this.2⟩
    refine ⟨m, ?_, List.mem_dedup.mp hmmode.1, ?_, ?_⟩
    · unfold wallTypeAgg
      rw [← hws, hm]
    · intro v hv
      rw [hmmode.2]
      exact count_le_maxCountVal ws v hv
    · intro v hv hc
      have hvmode : v ∈ modeList ws := by
        unfold modeList
        rw [List.mem_filter]
        refine ⟨List.mem_dedup.mpr hv, ?_⟩
        simp [hc, hmmode.2]
      exact hmmin v hvmode
  · intro hnil
    unfold wallTypeAgg
    rw [hnil]
    rfl

/-- C8 (amended): within each resampled (box, sensor, bin) group every
numeric column is averaged, and wall_type takes the most frequent
non-missing value of the bin, with ties among equally frequent values
broken by the LEAST value in lexicographic order (pandas Series.mode
returns the modal values sorted and the source takes mode()[0]) — not by
first occurrence in the bin row order; a group with no non-missing
wall_type keeps its first cell. -/
theorem c8_bin_aggregation (df : List SensorRow) (p : Option PeriodsData)
    (out : List SensorRow) (h : resample_to_10min df p = some out) :
    ∀ r ∈ out,
      r.surface_temp = meanOpt ((binGroup df r).map (·.surface_temp)) ∧
      r.internal_temp = meanOpt ((binGroup df r).map (·.internal_temp)) ∧
      r.room_temp = meanOpt ((binGroup df r).map (·.room_temp)) ∧
      ((((binGroup df r).map (·.wall_type)).filterMap id ≠ []) →
        ∃ m, r.wall_type = some m ∧
          m ∈ ((binGroup df r).map (·.wall_type)).filterMap id ∧
          (∀ v ∈ ((binGroup df r).map (·.wall_type)).filterMap id,
            (((binGroup df r).map (·.wall_type)).filterMap id).count v ≤
              (((binGroup df r).map (·.wall_type)).filterMap id).count m) ∧
          (∀ v ∈ ((binGroup df r).map (·.wall_type)).filterMap id,
            (((binGroup df r).map (·.wall_type)).filterMap id).count v =
              (((binGroup df r).map (·.wall_type)).filterMap id).count m → m ≤ v)) ∧
      ((((binGroup df r).map (·.wall_type)).filterMap id = []) →
        r.wall_type = (((binGroup df r).map (·.wall_type)).head?).getD none) := by
  intro r hr
  unfold resample_to_10min at h
  split at h
  · exact absurd h (by simp)
  · have hout := Option.some.inj h
    rw [← hout] at hr
    obtain ⟨k, hk, hak⟩ := List.mem_map.mp hr
    have hkeyr : rowKey r = k := by
      rw [← hak]
      obtain ⟨kp, kb, ks, kw, kpos, kt⟩ := k
      rfl
    have hgrp : binGroup df r = df.filter (fun x => decide (resKey x = k)) := by
      unfold binGroup
      rw [hkeyr]
    have hragg : r = aggGroup k (df.filter (fun x => decide (resKey x = k))) := hak.symm
    refine ⟨?_, ?_, ?_, ?_, ?_⟩
    · rw [hgrp, hragg]; rfl
    · rw [hgrp, hragg]; rfl
    · rw [hgrp, hragg]; rfl
    · intro hne
      rw [hgrp] at hne ⊢
      have hspec := (wallTypeAgg_spec
        ((df.filter (fun x => decide (resKey x = k))).map (·.wall_type))).1 hne
      obtain ⟨m, hm, hmem, hmax, hmin⟩ := hspec
      refine ⟨m, ?_, hmem, hmax, hmin⟩
      rw [hragg]
      exact hm
    · intro hnil
      rw [hgrp] at hnil ⊢
      have hspec := (wallTypeAgg_spec
        ((df.filter (fun x => decide (resKey x = k))).map (·.wall_type))).2 hnil
      rw [hragg]
      exact hspec

/-- C8 counterexample: a bin whose wall_type values are b then a, each
occurring once.  The claim predicts the first-encountered value b on this
tie; the code takes mode()[0], which pandas sorts, and returns a. -/
theorem c8_counterexample :
    ((resample_to_10min [c8RowB, c8RowA] none).getD []).map (·.wall_type) =
      [some "a"] ∧
    [c8RowB, c8RowA].map (·.wall_type) = [some "b", some "a"] := by
  refine ⟨by decide, by decide⟩

/-- C8 witness: the bin-aggregation theorem applied to the concrete two-row
bin used by the counterexample. -/
theorem c8_bin_aggregation_witness :
    c8OutRow.surface_temp =
      meanOpt ((binGroup [c8RowB, c8RowA] c8OutRow).map (·.surface_temp)) ∧
    c8OutRow.internal_temp =
      meanOpt ((binGroup [c8RowB, c8RowA] c8OutRow).map (·.internal_temp)) ∧
    c8OutRow.room_temp =
      meanOpt ((binGroup [c8RowB, c8RowA] c8OutRow).map (·.room_temp)) ∧
    ((((binGroup [c8RowB, c8RowA] c8OutRow).map (·.wall_type)).filterMap id ≠ []) →
      ∃ m, c8OutRow.wall_type = some m ∧
        m ∈ ((binGroup [c8RowB, c8RowA] c8OutRow).map (·.wall_type)).filterMap id ∧
        (∀ v ∈ ((binGroup [c8RowB, c8RowA] c8OutRow).map (·.wall_type)).filterMap id,
          (((binGroup [c8RowB, c8RowA] c8OutRow).map (·.wall_type)).filterMap id).count v ≤
            (((binGroup [c8RowB, c8RowA] c8OutRow).map (·.wall_type)).filterMap id).count m) ∧
        (∀ v ∈ ((binGroup [c8RowB, c8RowA] c8OutRow).map (·.wall_type)).filterMap id,
          (((binGroup [c8RowB, c8RowA] c8OutRow).map (·.wall_type)).filterMap id).count v =
            (((binGroup [c8RowB, c8RowA] c8OutRow).map (·.wall_type)).filterMap id).count m → m ≤ v)) ∧
    ((((binGroup [c8RowB, c8RowA] c8OutRow).map (·.wall_type)).filterMap id = []) →
      c8OutRow.wall_type =
        (((binGroup [c8RowB, c8RowA] c8OutRow).map (·.wall_type)).head?).getD none) :=
  c8_bin_aggregation [c8RowB, c8RowA] none
    ((resample_to_10min [c8RowB, c8RowA] none).getD []) rfl
    c8OutRow (List.mem_singleton.mpr rfl)

theorem find?_keyed_map {K V : Type} [DecidableEq K] (f : K → V) :
    ∀ (ks : List K) (k : K), ks.Nodup → k ∈ ks →
      (ks.map (fun x => (x, f x))).find? (fun e => decide (e.1 = k)) = some (k, f k) := by
  intro ks
  induction ks with
  | nil => intro k _ hk; cases hk
  | cons a as ih =>
    intro k hnd hk
    rcases List.mem_cons.mp hk with heq | hmem
    · subst heq
      simp only [List.map_cons]
      exact List.find?_cons_of_pos _ (by simp)
    · have hne : a ≠ k := by
        intro hc
        subst hc
        exact (List.nodup_cons.mp hnd).1 hmem
      simp only [List.map_cons]
      rw [List.find?_cons_of_neg _ (by simpa using hne)]
      exact ih k (List.nodup_cons.mp hnd).2 hmem

theorem find?_keyed_map_none {K V : Type} [DecidableEq K] (f : K → V) :
    ∀ (ks : List K) (k : K), k ∉ ks →
      (ks.map (fun x => (x, f x))).find? (fun e => decide (e.1 = k)) = none := by
  intro ks
  induction ks with
  | nil => intro k _; rfl
  | cons a as ih =>
    intro k hk
    have hne : a ≠ k := fun hc => hk (hc ▸ List.mem_cons_self a as)
    simp only [List.map_cons]
    rw [List.find?_cons_of_neg _ (by simpa using hne)]
    exact ih k (fun hm2 => hk (List.mem_cons_of_mem a hm2))

/-- C3: in every box-level row, internal_temp and room_temp are means over
all sensor rows of the (period, box, timestamp) group, surface_temp is the
mean over only the rows with position in, sensor_count is the number of
contributing sensor rows; and if the table has no in-position row at all,
every surface_temp in the output is missing. -/
theorem c3_box_level (df : List SensorRow) (out : List BoxRow)
    (h : aggregate_box_level df = some out) :
    (∀ b ∈ out,
      b.internal_temp = meanOpt ((boxGroup df b).map (·.internal_temp)) ∧
      b.room_temp = meanOpt ((boxGroup df b).map (·.room_temp)) ∧
      b.sensor_count = (boxGroup df b).length ∧
      b.surface_temp = meanOpt (((boxGroup df b).filter
        (fun r => decide (r.position = some "in"))).map (·.surface_temp))) ∧
    ((∀ r ∈ df, r.position ≠ some "in") → ∀ b ∈ out, b.surface_temp = none) := by
  have hmain : ∀ b ∈ out,
      b.internal_temp = meanOpt ((boxGroup df b).map (·.internal_temp)) ∧
      b.room_temp = meanOpt ((boxGroup df b).map (·.room_temp)) ∧
      b.sensor_count = (boxGroup df b).length ∧
      b.surface_temp = meanOpt (((boxGroup df b).filter
        (fun r => decide (r.position = some "in"))).map (·.surface_temp)) := by
    intro b hb
    unfold aggregate_box_level at h
    split at h
    · exact absurd h (by simp)
    · have hout := Option.some.inj h
      rw [← hout] at hb
      obtain ⟨b0, hb0, hmerge⟩ := List.mem_map.mp hb
      obtain ⟨k, hk, hmk⟩ := List.mem_map.mp hb0
      subst hmerge
      subst hmk
      obtain ⟨kp, kb, kt⟩ := k
      dsimp only [boxGroup]
      refine ⟨rfl, rfl, rfl, ?_⟩
      by_cases hkin : ((kp, kb, kt) : BoxKey) ∈
          ((df.filter (fun r => decide (r.position = some "in"))).map boxKey).dedup
      · rw [find?_keyed_map
            (fun k2 => meanOpt (((df.filter (fun r => decide (r.position = some "in"))).filter
              (fun r => decide (boxKey r = k2))).map (·.surface_temp)))
            ((df.filter (fun r => decide (r.position = some "in"))).map boxKey).dedup
            ((kp, kb, kt) : BoxKey) (List.nodup_dedup _) hkin]
        simp only [Option.map_some', Option.getD_some]
        rw [List.filter_comm]
      · rw [find?_keyed_map_none
            (fun k2 => meanOpt (((df.filter (fun r => decide (r.position = some "in"))).filter
              (fun r => decide (boxKey r = k2))).map (·.surface_temp)))
            ((df.filter (fun r => decide (r.position = some "in"))).map boxKey).dedup
            ((kp, kb, kt) : BoxKey) hkin]
        have hnil : (df.filter (fun r => decide (boxKey r = ((kp, kb, kt) : BoxKey)))).filter
            (fun r => decide (r.position = some "in")) = [] := by
          rw [List.filter_eq_nil_iff]
          intro r hr hpos
          apply hkin
          apply List.mem_dedup.mpr
          apply List.mem_map.mpr
          refine ⟨r, ?_, ?_⟩
          · rw [List.mem_filter]
            exact ⟨(List.mem_filter.mp hr).1, hpos⟩
          · simpa using (List.mem_filter.mp hr).2
        rw [hnil]
        rfl
  refine ⟨hmain, ?_⟩
  intro hnone b hb
  have hb4 := (hmain b hb).2.2.2
  have hnil : (boxGroup df b).filter (fun r => decide (r.position = some "in")) = [] := by
    rw [List.filter_eq_nil_iff]
    intro r hr hpos
    have hrdf : r ∈ df := (List.mem_filter.mp hr).1
    exact hnone r hrdf (by simpa using hpos)
  rw [hnil] at hb4
  exact hb4

/-- C3 witness: the box-level theorem applied to a concrete two-row table. -/
theorem c3_box_level_witness :
    (∀ b ∈ (aggregate_box_level [c3RowIn, c3RowOut]).getD [],
      b.internal_temp = meanOpt ((boxGroup [c3RowIn, c3RowOut] b).map (·.internal_temp)) ∧
      b.room_temp = meanOpt ((boxGroup [c3RowIn, c3RowOut] b).map (·.room_temp)) ∧
      b.sensor_count = (boxGroup [c3RowIn, c3RowOut] b).length ∧
      b.surface_temp = meanOpt (((boxGroup [c3RowIn, c3RowOut] b).filter
        (fun r => decide (r.position = some "in"))).map (·.surface_temp))) ∧
    ((∀ r ∈ [c3RowIn, c3RowOut], r.position ≠ some "in") →
      ∀ b ∈ (aggregate_box_level [c3RowIn, c3RowOut]).getD [], b.surface_temp = none) :=
  c3_box_level [c3RowIn, c3RowOut] _ rfl

/-- C4 counterexample: with both internal columns present and a row where
out_internal is missing and in_internal = 25, the claim predicts
internal_avg = 25 (fallback to the present value); the code computes
(out_internal + in_internal) / 2 row-wise, so NaN propagates and
internal_avg is missing. -/
theorem c4_counterexample :
    c4Row.out_internal = none ∧ c4Row.in_internal = some 25 ∧
    (calculate_thermal_gradient c4Cols [c4Row]).2.map (·.internal_avg) = [none] := by
  refine ⟨rfl, rfl, by decide⟩

/-- C4 (amended): the fallback of internal_avg operates at column level, not
per row.  With both internal columns present, a row gets the mean when both
values are present and a missing internal_avg when either value is missing;
with exactly one internal column present that column is copied; with
neither, the derived column is absent.  gradient_in_surface_to_internal and
total_gradient subtract row-wise from internal_avg with missing-propagation
whenever their source columns exist. -/
theorem c4_internal_avg (cols : WallCols) (rows : List WallRowIn) (r : WallRowIn)
    (hr : r ∈ rows) :
    gradRowOf cols r ∈ (calculate_thermal_gradient cols rows).2 ∧
    (cols.hasOutInternal = true → cols.hasInInternal = true →
      (∀ a b : ℚ, r.out_internal = some a → r.in_internal = some b →
        (gradRowOf cols r).internal_avg = some ((a + b) / 2)) ∧
      (r.out_internal = none → (gradRowOf cols r).internal_avg = none) ∧
      (r.in_internal = none → (gradRowOf cols r).internal_avg = none)) ∧
    (cols.hasOutInternal = true → cols.hasInInternal = false →
      (gradRowOf cols r).internal_avg = r.out_internal) ∧
    (cols.hasOutInternal = false → cols.hasInInternal = true →
      (gradRowOf cols r).internal_avg = r.in_internal) ∧
    (cols.hasOutInternal = false → cols.hasInInternal = false →
      (gradRowOf cols r).internal_avg = none ∧
      (calculate_thermal_gradient cols rows).1.hasInternalAvgCol = false) ∧
    (cols.hasInSurface = true → hasInternalAvg cols = true →
      (gradRowOf cols r).gradient_in_surface_to_internal =
        osub (gradRowOf cols r).internal_avg r.in_surface) ∧
    (cols.hasRoom = true → hasInternalAvg cols = true →
      (gradRowOf cols r).total_gradient =
        osub (gradRowOf cols r).internal_avg r.room_temp) := by
  refine ⟨List.mem_map.mpr ⟨r, hr, rfl⟩, ?_, ?_, ?_, ?_, ?_, ?_⟩
  · intro h1 h2
    refine ⟨?_, ?_, ?_⟩
    · intro a b ha hb
      simp [gradRowOf, internalAvgCell, h1, h2, ha, hb, omean2]
    · intro ha
      simp [gradRowOf, internalAvgCell, h1, h2, ha, omean2]
    · intro hb
      cases ho : r.out_internal <;>
        simp [gradRowOf, internalAvgCell, h1, h2, hb, ho, omean2]
  · intro h1 h2
    simp [gradRowOf, internalAvgCell, h1, h2]
  · intro h1 h2
    simp [gradRowOf, internalAvgCell, h1, h2]
  · intro h1 h2
    refine ⟨?_, ?_⟩
    · simp [gradRowOf, internalAvgCell, h1, h2]
    · simp [calculate_thermal_gradient, hasInternalAvg, h1, h2]
  · intro h1 h2
    simp [gradRowOf, h1, h2]
  · intro h1 h2
    simp [gradRowOf, h1, h2]

/-- C4 witness: the amended theorem applied to a concrete one-row table with
all columns present. -/
theorem c4_internal_avg_witness :
    gradRowOf c4Cols c4WRow ∈ (calculate_thermal_gradient c4Cols [c4WRow]).2 ∧
    (c4Cols.hasOutInternal = true → c4Cols.hasInInternal = true →
      (∀ a b : ℚ, c4WRow.out_internal = some a → c4WRow.in_internal = some b →
        (gradRowOf c4Cols c4WRow).internal_avg = some ((a + b) / 2)) ∧
      (c4WRow.out_internal = none → (gradRowOf c4Cols c4WRow).internal_avg = none) ∧
      (c4WRow.in_internal = none → (gradRowOf c4Cols c4WRow).internal_avg = none)) ∧
    (c4Cols.hasOutInternal = true → c4Cols.hasInInternal = false →
      (gradRowOf c4Cols c4WRow).internal_avg = c4WRow.out_internal) ∧
    (c4Cols.hasOutInternal = false → c4Cols.hasInInternal = true →
      (gradRowOf c4Cols c4WRow).internal_avg = c4WRow.in_internal) ∧
    (c4Cols.hasOutInternal = false → c4Cols.hasInInternal = false →
      (gradRowOf c4Cols c4WRow).internal_avg = none ∧
      (calculate_thermal_gradient c4Cols [c4WRow]).1.hasInternalAvgCol = false) ∧
    (c4Cols.hasInSurface = true → hasInternalAvg c4Cols = true →
      (gradRowOf c4Cols c4WRow).gradient_in_surface_to_internal =
        osub (gradRowOf c4Cols c4WRow).internal_avg c4WRow.in_surface) ∧
    (c4Cols.hasRoom = true → hasInternalAvg c4Cols = true →
      (gradRowOf c4Cols c4WRow).total_gradient =
        osub (gradRowOf c4Cols c4WRow).internal_avg c4WRow.room_temp) :=
  c4_internal_avg c4Cols [c4WRow] c4WRow (List.mem_singleton.mpr rfl)

/-- C6: the period load fails (no table) if and only if every file of the
directory yields no usable data; whenever at least one file contributes, the
returned table is exactly the concatenation of the usable file tables, each
individual failure being excluded rather than fatal. -/
theorem c6_failure_policy (files : List PeriodFile) :
    (load_period_data files = none ↔ ∀ f ∈ files, fileTable f = none) ∧
    (∀ t, load_period_data files = some t →
      t = (files.filterMap fileTable).flatten ∧
      ∃ f ∈ files, ∃ rows, fileTable f = some rows) := by
  constructor
  · constructor
    · intro h
      unfold load_period_data at h
      by_cases he : (files.filterMap fileTable).isEmpty
      · intro f hf
        have hnil : files.filterMap fileTable = [] := by
          simpa using he
        exact List.filterMap_eq_nil_iff.mp hnil f hf
      · simp [he] at h
    · intro h
      unfold load_period_data
      have hnil : files.filterMap fileTable = [] := List.filterMap_eq_nil_iff.mpr h
      simp [hnil]
  · intro t ht
    unfold load_period_data at ht
    by_cases he : (files.filterMap fileTable).isEmpty
    · simp [he] at ht
    · simp only [he, Bool.false_eq_true, if_false, Option.some.injEq] at ht
      refine ⟨ht.symm, ?_⟩
      have hne : files.filterMap fileTable ≠ [] := by
        simpa using he
      cases hfm : files.filterMap fileTable with
      | nil => exact absurd hfm hne
      | cons x xs =>
        have hx : x ∈ files.filterMap fileTable := by
          rw [hfm]; exact List.mem_cons_self x xs
        obtain ⟨f, hf, hfx⟩ := List.mem_filterMap.mp hx
        exact ⟨f, hf, x, hfx⟩

/-- C6 witness: the partial-failure theorem applied to a concrete directory
with one usable and two unusable files. -/
theorem c6_failure_policy_witness :
    ((load_period_data [c6BadNameFile, c6GoodFile, c6BadContentFile]).getD []) =
      ([c6BadNameFile, c6GoodFile, c6BadContentFile].filterMap fileTable).flatten ∧
    ∃ f ∈ [c6BadNameFile, c6GoodFile, c6BadContentFile], ∃ rows, fileTable f = some rows :=
  (c6_failure_policy [c6BadNameFile, c6GoodFile, c6BadContentFile]).2 _ rfl

theorem getD_mem_of_lt {α : Type} :
    ∀ (l : List α) (i : ℕ), i < l.length → ∀ d : α, l.getD i d ∈ l := by
  intro l
  induction l with
  | nil => intro i hi; simp at hi
  | cons a as ih =>
    intro i hi d
    cases i with
    | zero => exact List.mem_cons_self a as
    | succ j =>
      exact List.mem_cons_of_mem a (ih j (by simpa using hi) d)

theorem getD_map_of_lt {α β : Type} (f : α → β) :
    ∀ (l : List α) (i : ℕ), i < l.length → ∀ (d : α) (d2 : β),
      (l.map f).getD i d2 = f (l.getD i d) := by
  intro l
  induction l with
  | nil => intro i hi; simp at hi
  | cons a as ih =>
    intro i hi d d2
    cases i with
    | zero => rfl
    | succ j => exact ih j (by simpa using hi) d d2

theorem mem_exists_getD {α : Type} :
    ∀ (l : List α) (x : α), x ∈ l → ∀ d : α, ∃ i, i < l.length ∧ l.getD i d = x := by
  intro l
  induction l with
  | nil => intro x hx; cases hx
  | cons a as ih =>
    intro x hx d
    rcases List.mem_cons.mp hx with heq | hmem
    · exact ⟨0, by simp, heq.symm⟩
    · obtain ⟨i, hi, hget⟩ := ih x hmem d
      exact ⟨i + 1, by simpa using hi, hget⟩

theorem elem_le_foldr_max : ∀ (xs : List ℚ) (x : ℚ), ∀ e ∈ xs, e ≤ xs.foldr max x := by
  intro xs
  induction xs with
  | nil => intro x e he; cases he
  | cons a as ih =>
    intro x e he
    rcases List.mem_cons.mp he with heq | hmem
    · subst heq; exact le_max_left _ _
    · exact le_trans (ih x e hmem) (le_max_right _ _)

theorem init_le_foldr_max : ∀ (xs : List ℚ) (x : ℚ), x ≤ xs.foldr max x := by
  intro xs
  induction xs with
  | nil => intro x; exact le_refl x
  | cons a as ih => intro x; exact le_trans (ih x) (le_max_right _ _)

theorem foldr_max_le_bound : ∀ (xs : List ℚ) (x z : ℚ),
    (∀ e ∈ xs, e ≤ z) → x ≤ z → xs.foldr max x ≤ z := by
  intro xs
  induction xs with
  | nil => intro x z _ hx; exact hx
  | cons a as ih =>
    intro x z hall hx
    apply max_le
    · exact hall a (List.mem_cons_self a as)
    · exact ih x z (fun e he => hall e (List.mem_cons_of_mem a he)) hx

theorem argmaxIdx_lt : ∀ (l : List ℚ), l ≠ [] → argmaxIdx l < l.length := by
  intro l
  induction l with
  | nil => intro h; exact absurd rfl h
  | cons x xs ih =>
    intro _
    unfold argmaxIdx
    split
    · simp
    · next hcond =>
      have hxs : xs ≠ [] := by
        intro hnil
        subst hnil
        exact hcond (le_refl x)
      have := ih hxs
      simpa using Nat.succ_lt_succ this

theorem getD_le_argmax : ∀ (l : List ℚ) (i : ℕ), i < l.length →
    l.getD i 0 ≤ l.getD (argmaxIdx l) 0 := by
  intro l
  induction l with
  | nil => intro i hi; simp at hi
  | cons x xs ih =>
    intro i hi
    unfold argmaxIdx
    split
    · next hcond =>
      cases i with
      | zero => exact le_refl _
      | succ j =>
        have hj : j < xs.length := by simpa using hi
        calc xs.getD j 0 ≤ xs.foldr max x := elem_le_foldr_max xs x _ (getD_mem_of_lt xs j hj 0)
          _ ≤ x := hcond
    · next hcond =>
      have hxs : xs ≠ [] := by
        intro hnil
        subst hnil
        exact hcond (le_refl x)
      have hklt : argmaxIdx xs < xs.length := argmaxIdx_lt xs hxs
      have hxk : x ≤ xs.getD (argmaxIdx xs) 0 := by
        by_contra hc
        push_neg at hc
        have hb : xs.foldr max x ≤ x := by
          apply foldr_max_le_bound
          · intro e he
            obtain ⟨j, hj, hget⟩ := mem_exists_getD xs e he 0
            calc e = xs.getD j 0 := hget.symm
              _ ≤ xs.getD (argmaxIdx xs) 0 := ih j hj
              _ ≤ x := le_of_lt hc
          · exact le_refl x
        exact hcond hb
      cases i with
      | zero => exact hxk
      | succ j =>
        have hj : j < xs.length := by simpa using hi
        exact ih j hj

theorem zero_mem_lagCandidates (n m : ℕ) (h : 0 < n) : 0 ∈ lagCandidates n m := by
  unfold lagCandidates
  rw [List.mem_filter]
  exact ⟨List.mem_range.mpr h, by simp⟩

/-- C7: the thermal lag estimator returns the undefined result if and only
if fewer than 10 jointly valid paired samples remain after removing
positions where either series is missing; otherwise the returned lag is a
multiple of 10 minutes within [0, max_lag_hours * 60], selected as a lag of
maximum cross-correlation among the non-negative lags inside the horizon. -/
theorem c7_thermal_lag (out_series in_series : List (Option ℚ)) (m : ℕ) :
    (calculate_thermal_lag out_series in_series m = none ↔
      (cleanPairs out_series in_series).length < 10) ∧
    (∀ L, calculate_thermal_lag out_series in_series m = some L →
      L ≤ 60 * m ∧
      ∃ l, L = 10 * l ∧
        l ∈ lagCandidates (cleanPairs out_series in_series).length m ∧
        ∀ l2 ∈ lagCandidates (cleanPairs out_series in_series).length m,
          corrAt (centered ((cleanPairs out_series in_series).map (fun p => p.1)))
              (centered ((cleanPairs out_series in_series).map (fun p => p.2))) l2 ≤
            corrAt (centered ((cleanPairs out_series in_series).map (fun p => p.1)))
              (centered ((cleanPairs out_series in_series).map (fun p => p.2))) l) := by
  constructor
  · constructor
    · intro h
      by_contra h10
      simp only [calculate_thermal_lag] at h
      rw [if_neg h10] at h
      have h0 : 0 ∈ lagCandidates (cleanPairs out_series in_series).length m :=
        zero_mem_lagCandidates _ m (by omega)
      have hne : (lagCandidates (cleanPairs out_series in_series).length m).isEmpty ≠ true := by
        intro he
        rw [List.isEmpty_iff] at he
        rw [he] at h0
        cases h0
      rw [if_neg hne] at h
      exact Option.noConfusion h
    · intro h10
      simp only [calculate_thermal_lag]
      rw [if_pos h10]
  · intro L hL
    simp only [calculate_thermal_lag] at hL
    by_cases h10 : (cleanPairs out_series in_series).length < 10
    · rw [if_pos h10] at hL
      exact Option.noConfusion hL
    · rw [if_neg h10] at hL
      have h0 : 0 ∈ lagCandidates (cleanPairs out_series in_series).length m :=
        zero_mem_lagCandidates _ m (by omega)
      have hcne : lagCandidates (cleanPairs out_series in_series).length m ≠ [] := by
        intro he
        rw [he] at h0
        cases h0
      have hne : (lagCandidates (cleanPairs out_series in_series).length m).isEmpty ≠ true := by
        simpa using hcne
      rw [if_neg hne] at hL
      set cands := lagCandidates (cleanPairs out_series in_series).length m with hcands
      set outC := centered ((cleanPairs out_series in_series).map (fun p => p.1)) with houtC
      set inC := centered ((cleanPairs out_series in_series).map (fun p => p.2)) with hinC
      set vals := cands.map (fun l => corrAt outC inC l) with hvals
      have hLval : 10 * cands.getD (argmaxIdx vals) 0 = L := Option.some.inj hL
      have hvne : vals ≠ [] := by
        rw [hvals]
        intro hv
        exact hcne (hcands ▸ List.map_eq_nil_iff.mp hv)
      have hklt : argmaxIdx vals < vals.length := argmaxIdx_lt vals hvne
      have hclt : argmaxIdx vals < cands.length := by
        rw [hvals] at hklt
        simpa using hklt
      have hl0mem : cands.getD (argmaxIdx vals) 0 ∈ cands :=
        getD_mem_of_lt cands _ hclt 0
      have hl0le : 10 * cands.getD (argmaxIdx vals) 0 ≤ 60 * m := by
        have hmem2 : cands.getD (argmaxIdx vals) 0 ∈
            (List.range (cleanPairs out_series in_series).length).filter
              (fun l => decide (10 * l ≤ 60 * m)) := by
          rw [← lagCandidates, ← hcands]
          exact hl0mem
        have := (List.mem_filter.mp hmem2).2
        simpa using this
      refine ⟨by omega, cands.getD (argmaxIdx vals) 0, by omega, hl0mem, ?_⟩
      intro l2 hl2
      obtain ⟨j, hj, hgetj⟩ := mem_exists_getD cands l2 hl2 0
      have h1 : vals.getD j 0 = corrAt outC inC l2 := by
        rw [hvals, getD_map_of_lt _ cands j hj 0 0, hgetj]
      have h2 : vals.getD (argmaxIdx vals) 0 =
          corrAt outC inC (cands.getD (argmaxIdx vals) 0) := by
        rw [hvals, getD_map_of_lt _ cands _ hclt 0 0]
      have h3 : vals.getD j 0 ≤ vals.getD (argmaxIdx vals) 0 := by
        apply getD_le_argmax
        rw [hvals]
        simpa using hj
      rw [h1, h2] at h3
      exact h3

/-- C7 witness: the lag theorem applied to two concrete 10-sample series
with a zero-hour horizon, where the estimator returns lag 0. -/
theorem c7_thermal_lag_witness :
    (0 : ℕ) ≤ 60 * 0 ∧
    ∃ l, (0 : ℕ) = 10 * l ∧
      l ∈ lagCandidates (cleanPairs c7OutSeries c7InSeries).length 0 ∧
      ∀ l2 ∈ lagCandidates (cleanPairs c7OutSeries c7InSeries).length 0,
        corrAt (centered ((cleanPairs c7OutSeries c7InSeries).map (fun p => p.1)))
            (centered ((cleanPairs c7OutSeries c7InSeries).map (fun p => p.2))) l2 ≤
          corrAt (centered ((cleanPairs c7OutSeries c7InSeries).map (fun p => p.1)))
            (centered ((cleanPairs c7OutSeries c7InSeries).map (fun p => p.2))) l := by
  apply (c7_thermal_lag c7OutSeries c7InSeries 0).2 0
  simp only [calculate_thermal_lag]
  rw [if_neg (by decide)]
  rw [if_neg (show ¬(lagCandidates
    (cleanPairs c7OutSeries c7InSeries).length 0).isEmpty = true by decide)]
  have hc : lagCandidates (cleanPairs c7OutSeries c7InSeries).length 0 = [0] := by decide
  rw [hc]
  have hg : ∀ i : ℕ, ([0] : List ℕ).getD i 0 = 0 := by
    intro i
    cases i with
    | zero => rfl
    | succ j => rfl
  rw [hg]

end WallTemp

